/-
  Verification of the Task-Reminder-App core logic.

  Shallow embedding of the client's task store, history store and overdue
  monitor (src/client/src/context/TaskContext.jsx,
  src/client/src/context/HistoryContext.jsx,
  src/client/src/hooks/useAutoCheck.js, src/client/src/App.jsx,
  src/client/src/components/AIEngine.js, src/client/src/utils/dateUtils.js).

  Modelling conventions:
  - Points in time (Date values / Date.now()) are natural numbers
    (milliseconds since epoch); `d1 < d2` models JS Date comparison.
  - Day keys (getTodayKey / getYesterdayKey) are opaque strings passed in
    as parameters, abstracting the wall clock.
  - A JS object used as a string-keyed map is an association list
    (List (String × Bucket)); `{...prev, [k]: v}` replaces the entry for k
    in place when present, else appends it.
  - JS Math.round on a non-negative quotient n/d is modelled exactly as
    round-half-up, jsRound n d = (2*n + d) / (2*d) in Nat division
    (floating point is abstracted to exact rational arithmetic).
  - Side effects (browser notifications, callback invocations) are logged
    in explicit event lists on the state.
-/
import Mathlib

namespace TaskReminder

/-- A task record, as created by `addTask` in TaskContext.jsx:
`{ id, title, deadline, completed, createdAt, notified }`, plus the
`completedAt` field written by `completeTask`. -/
structure Task where
  id : Nat
  title : String
  deadline : Nat
  completed : Bool
  completedAt : Option Nat
  createdAt : Nat
  notified : Bool
  deriving Repr, DecidableEq

/-- A day bucket of HistoryContext.jsx: `{ completed, missed }`. -/
structure Bucket where
  completed : Nat
  missed : Nat
  deriving Repr, DecidableEq

/-- The history map `{ "YYYY-MM-DD": { completed, missed }, ... }` as an
association list in insertion order (JS object key order). -/
def History := List (String × Bucket)
  deriving DecidableEq, Repr

instance : Inhabited History := ⟨([] : List (String × Bucket))⟩

/-- JS property read `h[k]`: first entry with key `k`, if any. -/
def History.lookup (h : History) (k : String) : Option Bucket :=
  match h with
  | [] => none
  | (k', b) :: rest => if k' = k then some b else History.lookup rest k

/-- The read `h[k]?.field || 0`, bundled: the bucket at `k`, or zeros. -/
def History.getBucket (h : History) (k : String) : Bucket :=
  (h.lookup k).getD ⟨0, 0⟩

/-- JS object spread `{...h, [k]: v}`: replace the entry for `k` in place
if present, else append it. -/
def History.setKey (h : History) (k : String) (v : Bucket) : History :=
  match h with
  | [] => [(k, v)]
  | (k', b) :: rest =>
      if k' = k then (k', v) :: rest
      else (k', b) :: History.setKey rest k v

/-- JS `Math.round(n / d)` for natural `n`, `d` (exact, round half up). -/
def jsRound (n d : Nat) : Nat := (2 * n + d) / (2 * d)

/-! ### dateUtils.js / AIEngine.js predicates -/

/-- Function `isOverdue(deadline)` from dateUtils.js: `new Date(deadline) < new Date()`.
The current time is the explicit parameter `now`. -/
def isOverdue (deadline now : Nat) : Bool := deadline < now

/-- Function `checkOverdue(task)` from AIEngine.js:
`!task.completed && new Date(task.deadline) < new Date()`. -/
def checkOverdue (t : Task) (now : Nat) : Bool :=
  !t.completed && isOverdue t.deadline now

/-! ### TaskContext.jsx derived values -/

/-- The count `tasks.filter(t => t.completed).length`. -/
def completedCount (tasks : List Task) : Nat :=
  (tasks.filter (fun t => t.completed)).length

/-- Derived value `disciplineScore` from TaskContext.jsx:
`tasks.length === 0 ? 100 : Math.round((completed / tasks.length) * 100)`. -/
def disciplineScore (tasks : List Task) : Nat :=
  if tasks.length = 0 then 100
  else jsRound (100 * completedCount tasks) tasks.length

/-- Derived value `pendingCount` from TaskContext.jsx:
`tasks.filter(t => !t.completed && !isOverdue(t.deadline)).length`. -/
def pendingCount (tasks : List Task) (now : Nat) : Nat :=
  (tasks.filter (fun t => !t.completed && !isOverdue t.deadline now)).length

/-- Derived value `overdueCount` from TaskContext.jsx:
`tasks.filter(t => !t.completed && isOverdue(t.deadline)).length`. -/
def overdueCount (tasks : List Task) (now : Nat) : Nat :=
  (tasks.filter (fun t => !t.completed && isOverdue t.deadline now)).length

/-! ### jsRound is exactly rational round-half-up -/

theorem jsRound_eq_round (n d : Nat) (hd : 0 < d) :
    (jsRound n d : ℤ) = round ((n : ℚ) / (d : ℚ)) := by
  have hdq : (d : ℚ) ≠ 0 := by positivity
  rw [round_eq]
  have hx : (n : ℚ) / (d : ℚ) + 1 / 2 = ((2 * n + d : ℕ) : ℚ) / ((2 * d : ℕ) : ℚ) := by
    push_cast
    field_simp
    ring
  rw [hx]
  have h2d : 0 < 2 * d := by omega
  have h2dq : (0 : ℚ) < ((2 * d : ℕ) : ℚ) := by exact_mod_cast h2d
  symm
  rw [Int.floor_eq_iff]
  constructor
  · rw [le_div_iff₀ h2dq]
    have h1 : jsRound n d * (2 * d) ≤ 2 * n + d := Nat.div_mul_le_self (2 * n + d) (2 * d)
    exact_mod_cast h1
  · rw [div_lt_iff₀ h2dq]
    have h2 : 2 * n + d < (jsRound n d + 1) * (2 * d) := by
      have hdm := Nat.div_add_mod (2 * n + d) (2 * d)
      have hmlt := Nat.mod_lt (2 * n + d) h2d
      unfold jsRound
      nlinarith [Nat.div_add_mod (2 * n + d) (2 * d)]
    push_cast
    exact_mod_cast h2

/-! ## Claim C5: discipline score -/

/-- C5. For every task list, `disciplineScore` is 100 on the empty list and
otherwise equals `round(100 * completedCount / length)` (exact rational
round-half-up, Mathlib's `round`); the result is always at most 100 (it is
a `Nat`, hence an integer in `0..100`). -/
theorem disciplineScore_spec (tasks : List Task) :
    (tasks = [] → disciplineScore tasks = 100) ∧
    (tasks ≠ [] →
      (disciplineScore tasks : ℤ) =
        round ((100 * (completedCount tasks) : ℚ) / (tasks.length : ℚ))) ∧
    disciplineScore tasks ≤ 100 := by
  refine ⟨fun h => by simp [disciplineScore, h], fun h => ?_, ?_⟩
  · have hlen : 0 < tasks.length := List.length_pos.mpr h
    have : disciplineScore tasks = jsRound (100 * completedCount tasks) tasks.length := by
      simp [disciplineScore, Nat.pos_iff_ne_zero.mp hlen]
    rw [this, jsRound_eq_round _ _ hlen]
    push_cast
    ring_nf
  · by_cases h : tasks.length = 0
    · simp [disciplineScore, h]
    · have hlen : 0 < tasks.length := Nat.pos_of_ne_zero h
      have hcc : completedCount tasks ≤ tasks.length := by
        unfold completedCount; exact List.length_filter_le _ _
      have hds : disciplineScore tasks = jsRound (100 * completedCount tasks) tasks.length := by
        simp [disciplineScore, h]
      rw [hds]
      unfold jsRound
      have h2 : 0 < 2 * tasks.length := by omega
      have h3 : (2 * (100 * completedCount tasks) + tasks.length) / (2 * tasks.length) < 101 :=
        (Nat.div_lt_iff_lt_mul h2).mpr (by omega)
      omega

/-- C5 witness: a concrete two-task list with one completion scores 50. -/
theorem disciplineScore_spec_witness :
    (disciplineScore
      [⟨1, "a", 10, true, some 5, 0, false⟩, ⟨2, "b", 20, false, none, 0, false⟩] : ℤ) =
      round ((100 * (completedCount
        [⟨1, "a", 10, true, some 5, 0, false⟩, ⟨2, "b", 20, false, none, 0, false⟩]) : ℚ) /
        (([⟨1, "a", 10, true, some 5, 0, false⟩,
           (⟨2, "b", 20, false, none, 0, false⟩ : Task)]).length : ℚ)) :=
  (disciplineScore_spec _).2.1 (by decide)

/-! ## Claim C6: the overdue predicate -/

/-- C6. `checkOverdue` is true iff the task is not completed and its deadline
is strictly before `now`; it is false whenever the task is completed; and it
depends only on the pair (completed, deadline) of the task together with
`now` (determinism in the claim's sense). -/
theorem checkOverdue_spec (t : Task) (now : Nat) :
    (checkOverdue t now = true ↔ (t.completed = false ∧ t.deadline < now)) ∧
    (t.completed = true → checkOverdue t now = false) ∧
    (∀ t' : Task, t'.completed = t.completed → t'.deadline = t.deadline →
      checkOverdue t' now = checkOverdue t now) := by
  refine ⟨?_, ?_, ?_⟩
  · simp [checkOverdue, isOverdue]
  · intro h; simp [checkOverdue, h]
  · intro t' h1 h2; simp [checkOverdue, isOverdue, h1, h2]

/-- C6 witness: at the concrete completed task with past deadline the
predicate is false, and at its incomplete twin it is true. -/
theorem checkOverdue_spec_witness :
    checkOverdue ⟨1, "x", 3, true, some 4, 0, false⟩ 10 = false ∧
    (checkOverdue ⟨1, "x", 3, false, none, 0, false⟩ 10 = true ↔
      ((⟨1, "x", 3, false, none, 0, false⟩ : Task).completed = false ∧
        (⟨1, "x", 3, false, none, 0, false⟩ : Task).deadline < 10)) :=
  ⟨(checkOverdue_spec ⟨1, "x", 3, true, some 4, 0, false⟩ 10).2.1 rfl,
   (checkOverdue_spec ⟨1, "x", 3, false, none, 0, false⟩ 10).1⟩

/-! ### HistoryContext.jsx operations -/

/-- Operation `recordCompletion` from HistoryContext.jsx:
`{...prev, [today]: { completed: (prev[today]?.completed || 0) + 1,
missed: prev[today]?.missed || 0 }}`. The day key `today` (getTodayKey())
is an explicit parameter. -/
def recordCompletion (today : String) (h : History) : History :=
  h.setKey today ⟨(h.getBucket today).completed + 1, (h.getBucket today).missed⟩

/-- Operation `recordMissed` from HistoryContext.jsx:
`{...prev, [today]: { completed: prev[today]?.completed || 0,
missed: (prev[today]?.missed || 0) + 1 }}`. -/
def recordMissed (today : String) (h : History) : History :=
  h.setKey today ⟨(h.getBucket today).completed, (h.getBucket today).missed + 1⟩

/-- Operation `getRecoveryDebt` from HistoryContext.jsx:
`history[getYesterdayKey()]?.missed || 0`. The day key `yesterday` is an
explicit parameter. -/
def getRecoveryDebt (h : History) (yesterday : String) : Nat :=
  match h.lookup yesterday with
  | some b => b.missed
  | none => 0

/-- Sum of `completed` over all buckets (the `reduce` in
`getOverallCompletionRate`). -/
def sumCompleted (h : History) : Nat :=
  (h : List (String × Bucket)).foldl (fun acc e => acc + e.2.completed) 0

/-- Sum of `missed` over all buckets. -/
def sumMissed (h : History) : Nat :=
  (h : List (String × Bucket)).foldl (fun acc e => acc + e.2.missed) 0

/-- Operation `getOverallCompletionRate` from HistoryContext.jsx:
100 on an empty history; otherwise `Math.round(completed/total*100)` over
the totals, with a fallback of 100 when the total is zero. -/
def getOverallCompletionRate (h : History) : Nat :=
  if (h : List (String × Bucket)).isEmpty then 100
  else
    let total := sumCompleted h + sumMissed h
    if 0 < total then jsRound (100 * sumCompleted h) total else 100

/-- Operation `clearHistory` from HistoryContext.jsx: `setHistory({})`. -/
def clearHistory : History := []

/-! ### Lemmas about the association-list map -/

theorem lookup_setKey_self (h : History) (k : String) (v : Bucket) :
    (h.setKey k v).lookup k = some v := by
  induction h with
  | nil => simp [History.setKey, History.lookup]
  | cons e rest ih =>
      obtain ⟨k', b⟩ := e
      by_cases hk : k' = k
      · simp [History.setKey, History.lookup, hk]
      · simp [History.setKey, History.lookup, hk, ih]

theorem lookup_setKey_ne (h : History) (k k' : String) (v : Bucket) (hne : k' ≠ k) :
    (h.setKey k v).lookup k' = h.lookup k' := by
  have hkk : ¬ k = k' := fun e => hne e.symm
  induction h with
  | nil => simp [History.setKey, History.lookup, hkk]
  | cons e rest ih =>
      obtain ⟨k0, b⟩ := e
      by_cases hk : k0 = k
      · subst hk
        simp [History.setKey, History.lookup, hkk]
      · simp [History.setKey, History.lookup, hk, ih]

/-! ## Claim C7: recovery debt -/

/-- C7. `getRecoveryDebt` returns the `missed` count of yesterday's bucket,
and 0 when the history has no bucket for yesterday. -/
theorem getRecoveryDebt_spec (h : History) (yesterday : String) :
    (∀ b : Bucket, h.lookup yesterday = some b → getRecoveryDebt h yesterday = b.missed) ∧
    (h.lookup yesterday = none → getRecoveryDebt h yesterday = 0) := by
  constructor
  · intro b hb; simp [getRecoveryDebt, hb]
  · intro hb; simp [getRecoveryDebt, hb]

/-- C7 witness: on a concrete history, the debt is yesterday's missed count,
and 0 for a day with no bucket. -/
theorem getRecoveryDebt_spec_witness :
    getRecoveryDebt [("2026-02-19", ⟨3, 2⟩), ("2026-02-20", ⟨1, 0⟩)] "2026-02-19" = 2 ∧
    getRecoveryDebt [("2026-02-19", ⟨3, 2⟩), ("2026-02-20", ⟨1, 0⟩)] "2026-02-18" = 0 :=
  ⟨(getRecoveryDebt_spec [("2026-02-19", ⟨3, 2⟩), ("2026-02-20", ⟨1, 0⟩)] "2026-02-19").1
      ⟨3, 2⟩ (by decide),
   (getRecoveryDebt_spec [("2026-02-19", ⟨3, 2⟩), ("2026-02-20", ⟨1, 0⟩)] "2026-02-18").2
      (by decide)⟩

/-! ## Claim C8: overall completion rate -/

/-- C8. `getOverallCompletionRate` equals
`round(100 * Σcompleted / Σ(completed+missed))` (Mathlib's round-half-up on
exact rationals) whenever the denominator is positive, equals 100 whenever
the denominator is zero (the empty history included), and equals 83 on the
history `{d1: {completed:3, missed:1}, d2: {completed:2, missed:0}}`. -/
theorem getOverallCompletionRate_spec (h : History) :
    (sumCompleted h + sumMissed h = 0 → getOverallCompletionRate h = 100) ∧
    (0 < sumCompleted h + sumMissed h →
      (getOverallCompletionRate h : ℤ) =
        round ((100 * (sumCompleted h) : ℚ) / ((sumCompleted h + sumMissed h : ℕ) : ℚ))) ∧
    getOverallCompletionRate [("d1", ⟨3, 1⟩), ("d2", ⟨2, 0⟩)] = 83 := by
  refine ⟨fun h0 => ?_, fun hpos => ?_, by decide⟩
  · by_cases he : (h : List (String × Bucket)).isEmpty
    · simp [getOverallCompletionRate, he]
    · simp [getOverallCompletionRate, he, h0]
  · have he : ¬ (h : List (String × Bucket)).isEmpty := by
      intro he
      have : (h : List (String × Bucket)) = [] := List.isEmpty_iff.mp he
      rw [show sumCompleted h = 0 from by simp [sumCompleted, this],
          show sumMissed h = 0 from by simp [sumMissed, this]] at hpos
      omega
    have : getOverallCompletionRate h =
        jsRound (100 * sumCompleted h) (sumCompleted h + sumMissed h) := by
      simp [getOverallCompletionRate, he, hpos]
    rw [this, jsRound_eq_round _ _ hpos]
    push_cast
    ring_nf

/-- C8 witness: the concrete positive-denominator case from the claim. -/
theorem getOverallCompletionRate_spec_witness :
    (getOverallCompletionRate [("d1", ⟨3, 1⟩), ("d2", ⟨2, 0⟩)] : ℤ) =
      round ((100 * (sumCompleted [("d1", ⟨3, 1⟩), ("d2", ⟨2, 0⟩)]) : ℚ) /
        ((sumCompleted [("d1", ⟨3, 1⟩), ("d2", ⟨2, 0⟩)] +
          sumMissed [("d1", ⟨3, 1⟩), ("d2", ⟨2, 0⟩)] : ℕ) : ℚ)) :=
  (getOverallCompletionRate_spec [("d1", ⟨3, 1⟩), ("d2", ⟨2, 0⟩)]).2.1 (by decide)

/-! ## Claim C9: day-bucket counters -/

/-- C9. `recordCompletion` sets today's bucket to (completed+1, missed) of its
prior value (zeros if absent) and leaves every other key's lookup unchanged;
`recordMissed` symmetrically increments only `missed`; both are monotone
(no count ever decreases, counts being naturals are non-negative); and
`clearHistory` is the empty map (the only reset). -/
theorem dayBucket_counters_spec (h : History) (today : String) :
    ((recordCompletion today h).lookup today =
      some ⟨(h.getBucket today).completed + 1, (h.getBucket today).missed⟩) ∧
    ((recordMissed today h).lookup today =
      some ⟨(h.getBucket today).completed, (h.getBucket today).missed + 1⟩) ∧
    (∀ k : String, k ≠ today →
      (recordCompletion today h).lookup k = h.lookup k ∧
      (recordMissed today h).lookup k = h.lookup k) ∧
    (∀ k : String,
      (h.getBucket k).completed ≤ ((recordCompletion today h).getBucket k).completed ∧
      (h.getBucket k).missed ≤ ((recordCompletion today h).getBucket k).missed ∧
      (h.getBucket k).completed ≤ ((recordMissed today h).getBucket k).completed ∧
      (h.getBucket k).missed ≤ ((recordMissed today h).getBucket k).missed) ∧
    (clearHistory.lookup today = none) := by
  refine ⟨lookup_setKey_self h today _, lookup_setKey_self h today _,
    fun k hk => ⟨lookup_setKey_ne h today k _ hk, lookup_setKey_ne h today k _ hk⟩,
    fun k => ?_, rfl⟩
  by_cases hk : k = today
  · subst hk
    simp [History.getBucket, recordCompletion, recordMissed,
      lookup_setKey_self h k]
  · simp [History.getBucket, recordCompletion, recordMissed,
      lookup_setKey_ne h today k _ hk]

/-- C9 witness: concrete instance on a one-bucket history, with a distinct
untouched key. -/
theorem dayBucket_counters_spec_witness :
    (recordCompletion "2026-02-20" [("2026-02-19", ⟨4, 1⟩)]).lookup "2026-02-20" =
      some ⟨1, 0⟩ ∧
    (recordMissed "2026-02-20" [("2026-02-19", ⟨4, 1⟩)]).lookup "2026-02-19" =
      some ⟨4, 1⟩ := by
  have h := dayBucket_counters_spec [("2026-02-19", ⟨4, 1⟩)] "2026-02-20"
  refine ⟨?_, ?_⟩
  · have h1 := h.1
    rwa [show (History.getBucket [("2026-02-19", ⟨4, 1⟩)] "2026-02-20") = ⟨0, 0⟩
      from by decide] at h1
  · exact (h.2.2.1 "2026-02-19" (by decide)).2

/-! ### useAutoCheck.js: the overdue monitor -/

/-- The monitor's observable state: `notifiedTasksRef.current` (a Set of task
ids, here the list of ids in insertion order — a JS Set never holds
duplicates, and insertion appends) and the log of `onTaskOverdue` callback
invocations (`callbacks`, one task id per invocation). -/
structure MonState where
  notified : List Nat
  callbacks : List Nat
  deriving Repr, DecidableEq

/-- The fresh state `useRef(new Set())`, before any callback. -/
def initMon : MonState := ⟨[], []⟩

/-- The body of `tasks.forEach(task => ...)` inside `checkOverdueTasks`:
skip completed tasks, skip already-notified ids, otherwise on
`isOverdue(task.deadline)` add the id to the set, notify, and invoke the
callback. -/
def monStep (now : Nat) (s : MonState) (t : Task) : MonState :=
  if t.completed then s
  else if t.id ∈ s.notified then s
  else if isOverdue t.deadline now then
    { notified := s.notified ++ [t.id], callbacks := s.callbacks ++ [t.id] }
  else s

/-- Function `checkOverdueTasks`: the early return on an empty task list, then the
`forEach` scan. -/
def tick (tasks : List Task) (now : Nat) (s : MonState) : MonState :=
  if tasks.isEmpty then s else tasks.foldl (monStep now) s

/-- Repeated ticks of the monitor, one per entry of `nows` (the wall-clock
time at each tick). -/
def runTicks (tasks : List Task) (nows : List Nat) (s : MonState) : MonState :=
  nows.foldl (fun s now => tick tasks now s) s

theorem monStep_of_mem (now : Nat) (s : MonState) (t : Task)
    (h : t.id ∈ s.notified) : monStep now s t = s := by
  unfold monStep
  by_cases hc : t.completed <;> simp [hc, h]

theorem monStep_count_ne (now : Nat) (s : MonState) (t : Task) (i : Nat)
    (hne : t.id ≠ i) :
    (monStep now s t).notified.count i = s.notified.count i ∧
    (monStep now s t).callbacks.count i = s.callbacks.count i := by
  unfold monStep
  by_cases hc : t.completed
  · simp [hc]
  · by_cases hm : t.id ∈ s.notified
    · simp [hc, hm]
    · by_cases ho : isOverdue t.deadline now
      · simp [hc, hm, ho, List.count_append, List.count_singleton, hne]
      · simp [hc, hm, ho]

theorem monStep_mem_mono (now : Nat) (s : MonState) (t : Task) (i : Nat)
    (h : i ∈ s.notified) : i ∈ (monStep now s t).notified := by
  unfold monStep
  by_cases hc : t.completed
  · simpa [hc]
  · by_cases hm : t.id ∈ s.notified
    · simpa [hc, hm]
    · by_cases ho : isOverdue t.deadline now
      · simp [hc, hm, ho]
        exact Or.inl h
      · simpa [hc, hm, ho]

theorem monStep_not_mem (now : Nat) (s : MonState) (t : Task) (i : Nat)
    (hne : t.id ≠ i) (h : i ∉ s.notified) : i ∉ (monStep now s t).notified := by
  unfold monStep
  by_cases hc : t.completed
  · simpa [hc]
  · by_cases hm : t.id ∈ s.notified
    · simpa [hc, hm]
    · by_cases ho : isOverdue t.deadline now
      · simp [hc, hm, ho, hne, h]
        exact fun e => hne e.symm
      · simpa [hc, hm, ho]

theorem foldl_preserve_mem (now : Nat) (i : Nat) :
    ∀ (l : List Task) (s : MonState), i ∈ s.notified →
    (l.foldl (monStep now) s).notified.count i = s.notified.count i ∧
    (l.foldl (monStep now) s).callbacks.count i = s.callbacks.count i ∧
    i ∈ (l.foldl (monStep now) s).notified := by
  intro l
  induction l with
  | nil => intro s h; exact ⟨rfl, rfl, h⟩
  | cons u rest ih =>
      intro s h
      by_cases hu : u.id = i
      · have heq : monStep now s u = s := monStep_of_mem now s u (by rwa [hu])
        simpa [List.foldl_cons, heq] using ih s h
      · have hcnt := monStep_count_ne now s u i hu
        have hmem := monStep_mem_mono now s u i h
        have hr := ih (monStep now s u) hmem
        exact ⟨by rw [List.foldl_cons, hr.1, hcnt.1],
               by rw [List.foldl_cons, hr.2.1, hcnt.2],
               by rw [List.foldl_cons]; exact hr.2.2⟩

theorem foldl_no_id (now : Nat) (i : Nat) :
    ∀ (l : List Task) (s : MonState), (∀ u ∈ l, u.id ≠ i) → i ∉ s.notified →
    (l.foldl (monStep now) s).notified.count i = s.notified.count i ∧
    (l.foldl (monStep now) s).callbacks.count i = s.callbacks.count i ∧
    i ∉ (l.foldl (monStep now) s).notified := by
  intro l
  induction l with
  | nil => intro s _ h; exact ⟨rfl, rfl, h⟩
  | cons u rest ih =>
      intro s hl h
      have hu : u.id ≠ i := hl u (List.mem_cons_self u rest)
      have hcnt := monStep_count_ne now s u i hu
      have hnm := monStep_not_mem now s u i hu h
      have hr := ih (monStep now s u) (fun v hv => hl v (List.mem_cons_of_mem u hv)) hnm
      exact ⟨by rw [List.foldl_cons, hr.1, hcnt.1],
             by rw [List.foldl_cons, hr.2.1, hcnt.2],
             by rw [List.foldl_cons]; exact hr.2.2⟩

theorem monStep_fire (now : Nat) (s : MonState) (t : Task)
    (hc : t.completed = false) (hm : t.id ∉ s.notified) (ho : t.deadline < now) :
    monStep now s t =
      { notified := s.notified ++ [t.id], callbacks := s.callbacks ++ [t.id] } := by
  simp [monStep, hc, hm, isOverdue, ho]

theorem tick_fires (tasks : List Task) (t : Task) (now : Nat)
    (hnd : (tasks.map Task.id).Nodup) (ht : t ∈ tasks) (hc : t.completed = false)
    (ho : t.deadline < now) (s : MonState) (hm : t.id ∉ s.notified) :
    (tick tasks now s).notified.count t.id = s.notified.count t.id + 1 ∧
    (tick tasks now s).callbacks.count t.id = s.callbacks.count t.id + 1 ∧
    t.id ∈ (tick tasks now s).notified := by
  obtain ⟨l₁, l₂, rfl⟩ := List.append_of_mem ht
  have hemp : ¬ (l₁ ++ t :: l₂).isEmpty := by simp
  rw [show tick (l₁ ++ t :: l₂) now s = (l₁ ++ t :: l₂).foldl (monStep now) s
    from by simp [tick, hemp]]
  rw [List.map_append, List.map_cons] at hnd
  rw [List.nodup_append] at hnd
  have h1 : ∀ u ∈ l₁, u.id ≠ t.id := by
    intro u hu he
    exact (hnd.2.2 (List.mem_map_of_mem Task.id hu)) (by rw [he]; exact List.mem_cons_self _ _)
  have h2 : ∀ u ∈ l₂, u.id ≠ t.id := by
    intro u hu he
    exact (List.nodup_cons.mp hnd.2.1).1 (by rw [← he]; exact List.mem_map_of_mem Task.id hu)
  rw [List.foldl_append, List.foldl_cons]
  have hA := foldl_no_id now t.id l₁ s h1 hm
  set s₁ := l₁.foldl (monStep now) s with hs₁
  have hfire := monStep_fire now s₁ t hc hA.2.2 ho
  rw [hfire]
  have hmem2 : t.id ∈ (s₁.notified ++ [t.id]) := List.mem_append_right _ (by simp)
  have hB := foldl_preserve_mem now t.id l₂
    ⟨s₁.notified ++ [t.id], s₁.callbacks ++ [t.id]⟩ hmem2
  refine ⟨?_, ?_, hB.2.2⟩
  · rw [hB.1]
    simp [List.count_append, hA.1]
  · rw [hB.2.1]
    simp [List.count_append, hA.2.1]

theorem tick_preserve (tasks : List Task) (now : Nat) (s : MonState) (i : Nat)
    (h : i ∈ s.notified) :
    (tick tasks now s).notified.count i = s.notified.count i ∧
    (tick tasks now s).callbacks.count i = s.callbacks.count i ∧
    i ∈ (tick tasks now s).notified := by
  unfold tick
  by_cases he : tasks.isEmpty
  · simp [he]; exact h
  · simp only [he, if_false]
    exact foldl_preserve_mem now i tasks s h

theorem runTicks_preserve (tasks : List Task) (i : Nat) :
    ∀ (nows : List Nat) (s : MonState), i ∈ s.notified →
    (runTicks tasks nows s).notified.count i = s.notified.count i ∧
    (runTicks tasks nows s).callbacks.count i = s.callbacks.count i := by
  intro nows
  induction nows with
  | nil => intro s _; exact ⟨rfl, rfl⟩
  | cons n rest ih =>
      intro s h
      have ht := tick_preserve tasks n s i h
      have hr := ih (tick tasks n s) ht.2.2
      exact ⟨hr.1.trans ht.1, hr.2.trans ht.2.1⟩

/-! ## Claim C1: the monitor notifies each task at most once -/

/-- C1. For a task with distinct-id task list, not completed and with its
deadline before the clock at every tick, any positive number of repeated
ticks of `checkOverdueTasks` starting from the fresh monitor state produce
exactly one `onTaskOverdue` callback invocation for that task's id and
exactly one entry for that id in the notified set. -/
theorem monitor_notifies_once (tasks : List Task) (t : Task) (nows : List Nat)
    (hnd : (tasks.map Task.id).Nodup) (ht : t ∈ tasks) (hc : t.completed = false)
    (hpast : ∀ x ∈ nows, t.deadline < x) (hne : nows ≠ []) :
    (runTicks tasks nows initMon).callbacks.count t.id = 1 ∧
    (runTicks tasks nows initMon).notified.count t.id = 1 := by
  obtain ⟨n, rest, rfl⟩ := List.exists_cons_of_ne_nil hne
  have h0 : t.id ∉ initMon.notified := by simp [initMon]
  have hfire := tick_fires tasks t n hnd ht hc (hpast n (List.mem_cons_self n rest)) initMon h0
  have hrun : runTicks tasks (n :: rest) initMon =
      runTicks tasks rest (tick tasks n initMon) := rfl
  have hpres := runTicks_preserve tasks t.id rest (tick tasks n initMon) hfire.2.2
  rw [hrun]
  constructor
  · rw [hpres.2, hfire.2.1]; simp [initMon]
  · rw [hpres.1, hfire.1]; simp [initMon]

/-- C1 witness: one incomplete task with deadline 5, three ticks at times
10, 20, 30: exactly one callback and one notified entry. -/
theorem monitor_notifies_once_witness :
    (runTicks [⟨7, "t", 5, false, none, 0, false⟩] [10, 20, 30] initMon).callbacks.count 7 = 1 ∧
    (runTicks [⟨7, "t", 5, false, none, 0, false⟩] [10, 20, 30] initMon).notified.count 7 = 1 :=
  monitor_notifies_once [⟨7, "t", 5, false, none, 0, false⟩]
    ⟨7, "t", 5, false, none, 0, false⟩ [10, 20, 30]
    (by decide) (by decide) rfl (by decide) (by decide)

/-! ### TaskContext.jsx actions and the App.jsx wiring -/

/-- The application state visible to the claims: the task list and streak
(TaskContext), the history map (HistoryContext), the monitor's notified-id
set, and the logs of emitted browser notifications
(`notifyOverdueTask` / `notifyTaskCompleted`, recorded by task id). -/
structure AppState where
  tasks : List Task
  streak : Nat
  history : History
  notifiedSet : List Nat
  overdueNotifs : List Nat
  completedNotifs : List Nat
  deriving Repr, DecidableEq

/-- Fresh application state (empty stores, streak 0). -/
def initApp : AppState := ⟨[], 0, [], [], [], []⟩

/-- Action `addTask` from TaskContext.jsx: unconditionally appends
`{ id: Date.now(), title, deadline, completed: false,
createdAt: new Date(), notified: false }`. `now` stands for `Date.now()`.
No input is validated and no error is ever produced. -/
def addTask (now : Nat) (title : String) (deadline : Nat) (s : AppState) : AppState :=
  { s with tasks := s.tasks ++ [⟨now, title, deadline, false, none, now, false⟩] }

/-- The per-task update of `completeTask`:
`t.id === id ? {...t, completed: true, completedAt: new Date()} : t`. -/
def completeOne (now id : Nat) (t : Task) : Task :=
  if t.id == id then { t with completed := true, completedAt := some now } else t

/-- The guard of `completeTask`: `prev.find(t => t.id === id)` yields a task
that is not yet completed. -/
def fireOf (id : Nat) (tasks : List Task) : Bool :=
  match tasks.find? (fun t => t.id == id) with
  | some t => !t.completed
  | none => false

/-- Action `completeTask` from TaskContext.jsx: if `prev.find(t => t.id === id)`
yields an incomplete task, show the completion notification and increment
the streak; in all cases map every task with the given id to
`{...t, completed: true, completedAt: new Date()}`. The history map is not
touched (`recordCompletion` has no caller). -/
def completeTask (now : Nat) (id : Nat) (s : AppState) : AppState :=
  { s with
    tasks := s.tasks.map (completeOne now id),
    streak := if fireOf id s.tasks then s.streak + 1 else s.streak,
    completedNotifs := if fireOf id s.tasks then s.completedNotifs ++ [id]
      else s.completedNotifs }

/-- Action `deleteTask` from TaskContext.jsx: `prev.filter(t => t.id !== id)`. -/
def deleteTask (id : Nat) (s : AppState) : AppState :=
  { s with tasks := s.tasks.filter (fun t => !(t.id == id)) }

/-- Action `markNotified` from TaskContext.jsx:
`prev.map(t => t.id === id ? {...t, notified: true} : t)`. Exported by the
provider but never invoked anywhere in the application. -/
def markNotified (id : Nat) (s : AppState) : AppState :=
  { s with tasks := s.tasks.map (fun t =>
      if t.id == id then { t with notified := true } else t) }

/-- Action `clearAllTasks` from TaskContext.jsx: `setTasks([]); setStreak(0)`. -/
def clearAllTasks (s : AppState) : AppState :=
  { s with tasks := [], streak := 0 }

/-- One `forEach` step of `checkOverdueTasks` under the App.jsx wiring:
the hook shows `notifyOverdueTask(task)` and the registered `onTaskOverdue`
callback is `(overdueTask) => { recordMissed(); }` — it calls neither
`markNotified` nor `recordCompletion`, so `task.notified` is never set. -/
def appStep (today : String) (now : Nat) (s : AppState) (t : Task) : AppState :=
  if t.completed then s
  else if t.id ∈ s.notifiedSet then s
  else if isOverdue t.deadline now then
    { s with notifiedSet := s.notifiedSet ++ [t.id],
             overdueNotifs := s.overdueNotifs ++ [t.id],
             history := recordMissed today s.history }
  else s

/-- Function `checkOverdueTasks` as wired in App.jsx: early return on an empty task
list, then the `forEach` scan over the task-list snapshot. -/
def appTick (today : String) (now : Nat) (s : AppState) : AppState :=
  if s.tasks.isEmpty then s else s.tasks.foldl (appStep today now) s

/-! ### Helper lemmas for the task-store actions -/

theorem completeOne_of_eq (now id : Nat) (t : Task) (h : (t.id == id) = true) :
    completeOne now id t = { t with completed := true, completedAt := some now } := by
  unfold completeOne
  rw [if_pos h]

theorem completeOne_of_ne (now id : Nat) (t : Task) (h : (t.id == id) = false) :
    completeOne now id t = t := by
  unfold completeOne
  rw [h, if_neg Bool.false_ne_true]

theorem completeOne_id (now id : Nat) (t : Task) : (completeOne now id t).id = t.id := by
  cases h : (t.id == id) with
  | true => rw [completeOne_of_eq now id t h]
  | false => rw [completeOne_of_ne now id t h]

theorem fireOf_none (id : Nat) (l : List Task)
    (h : l.find? (fun t => t.id == id) = none) : fireOf id l = false := by
  unfold fireOf
  rw [h]

theorem fireOf_some (id : Nat) (l : List Task) (t : Task)
    (h : l.find? (fun u => u.id == id) = some t) : fireOf id l = !t.completed := by
  unfold fireOf
  rw [h]

theorem map_complete_of_none (l : List Task) (id now : Nat)
    (h : l.find? (fun t => t.id == id) = none) :
    l.map (completeOne now id) = l := by
  induction l with
  | nil => rfl
  | cons u rest ih =>
      cases hvb : (u.id == id) with
      | true =>
          rw [List.find?_cons_of_pos (p := fun t : Task => t.id == id) _ hvb] at h
          cases h
      | false =>
          rw [List.find?_cons_of_neg (p := fun t : Task => t.id == id) _
            (fun hx => Bool.false_ne_true (hvb.symm.trans hx))] at h
          rw [List.map_cons, completeOne_of_ne now id u hvb, ih h]

theorem find?_map_complete (l : List Task) (id now : Nat) :
    (l.map (completeOne now id)).find? (fun t => t.id == id) =
    (l.find? (fun t => t.id == id)).map (completeOne now id) := by
  induction l with
  | nil => rfl
  | cons u rest ih =>
      rw [List.map_cons]
      cases hvb : (u.id == id) with
      | true =>
          have h1 : ((completeOne now id u).id == id) = true := by
            rw [completeOne_id]; exact hvb
          rw [List.find?_cons_of_pos (p := fun t : Task => t.id == id) _ h1,
              List.find?_cons_of_pos (p := fun t : Task => t.id == id) _ hvb,
              Option.map_some']
      | false =>
          have h1 : ¬ ((completeOne now id u).id == id) = true := by
            rw [completeOne_id, hvb]; exact Bool.false_ne_true
          rw [List.find?_cons_of_neg (p := fun t : Task => t.id == id) _ h1,
              List.find?_cons_of_neg (p := fun t : Task => t.id == id) _
                (fun hx => Bool.false_ne_true (hvb.symm.trans hx)),
              ih]

/-! ## Claim C4: addTask validation -/

/-- C4 counterexample. `addTask` with an empty title does not fail: on the
fresh state it creates the task (completed = false) instead of rejecting
the input, so no `ValidationError` is ever surfaced. -/
theorem addTask_empty_title_counterexample :
    (addTask 100 "" 50 initApp).tasks = [⟨100, "", 50, false, none, 100, false⟩] ∧
    (addTask 100 "" 50 initApp).tasks ≠ [] := by decide

/-- C4 (amended). `addTask` performs no validation and never fails: for
every title (the empty title included) and every deadline it appends
exactly one task carrying the assigned identifier (`Date.now()`),
`completed = false`, `notified = false` and no `completedAt`, leaving the
streak and the history unchanged. -/
theorem addTask_spec (now : Nat) (title : String) (deadline : Nat) (s : AppState) :
    (addTask now title deadline s).tasks =
      s.tasks ++ [⟨now, title, deadline, false, none, now, false⟩] ∧
    (addTask now title deadline s).streak = s.streak ∧
    (addTask now title deadline s).history = s.history :=
  ⟨rfl, rfl, rfl⟩

/-! ## Claim C2: completeTask -/

/-- C2 counterexample. On a task that is already completed (completedAt = 5),
`completeTask` is not a no-op on the task list: it overwrites `completedAt`
with the current time (9). -/
theorem completeTask_noop_counterexample :
    (completeTask 9 1
      { initApp with tasks := [⟨1, "a", 10, true, some 5, 0, false⟩] }).tasks ≠
      [⟨1, "a", 10, true, some 5, 0, false⟩] := by decide

/-- C2 (amended). `completeTask id`: a no-op when the id is unknown; when the
found task is incomplete it increments the streak and emits the
"task completed" notification exactly once per transition (a repeated call
adds nothing further); when the found task is already completed it adds no
notification and no streak, but still rewrites every task with that id to
`completed = true, completedAt = now` (so the call is not a no-op on the
task list); tasks with other ids are untouched; and the history map is
never updated (`recordCompletion` has no caller, so no completion-recorded
event reaches the History Store). -/
theorem completeTask_spec (s : AppState) (now id : Nat) :
    (s.tasks.find? (fun t => t.id == id) = none → completeTask now id s = s) ∧
    (∀ t, s.tasks.find? (fun u => u.id == id) = some t → t.completed = false →
      (completeTask now id s).streak = s.streak + 1 ∧
      (completeTask now id s).completedNotifs = s.completedNotifs ++ [id]) ∧
    (∀ t, s.tasks.find? (fun u => u.id == id) = some t → t.completed = true →
      (completeTask now id s).streak = s.streak ∧
      (completeTask now id s).completedNotifs = s.completedNotifs) ∧
    (completeTask now id s).history = s.history ∧
    (∀ u ∈ (completeTask now id s).tasks, u.id = id →
      u.completed = true ∧ u.completedAt = some now) ∧
    (∀ u ∈ (completeTask now id s).tasks, u.id ≠ id → u ∈ s.tasks) ∧
    (∀ t now', s.tasks.find? (fun u => u.id == id) = some t →
      (completeTask now' id (completeTask now id s)).streak =
        (completeTask now id s).streak ∧
      (completeTask now' id (completeTask now id s)).completedNotifs =
        (completeTask now id s).completedNotifs) := by
  refine ⟨?_, ?_, ?_, rfl, ?_, ?_, ?_⟩
  · intro hf
    have hm := map_complete_of_none s.tasks id now hf
    have hfire := fireOf_none id s.tasks hf
    simp only [completeTask, hm, hfire, Bool.false_eq_true, if_false]
  · intro t hf hc
    have hfire : fireOf id s.tasks = true := by
      rw [fireOf_some id s.tasks t hf, hc]
      rfl
    constructor
    · show (if fireOf id s.tasks = true then s.streak + 1 else s.streak) = s.streak + 1
      rw [hfire, if_pos rfl]
    · show (if fireOf id s.tasks = true then s.completedNotifs ++ [id]
          else s.completedNotifs) = s.completedNotifs ++ [id]
      rw [hfire, if_pos rfl]
  · intro t hf hc
    have hfire : fireOf id s.tasks = false := by
      rw [fireOf_some id s.tasks t hf, hc]
      rfl
    constructor
    · show (if fireOf id s.tasks = true then s.streak + 1 else s.streak) = s.streak
      rw [hfire, if_neg Bool.false_ne_true]
    · show (if fireOf id s.tasks = true then s.completedNotifs ++ [id]
          else s.completedNotifs) = s.completedNotifs
      rw [hfire, if_neg Bool.false_ne_true]
  · intro u hu hid
    simp only [completeTask, List.mem_map] at hu
    obtain ⟨v, hvm, hv⟩ := hu
    cases hvb : (v.id == id) with
    | true =>
        rw [completeOne_of_eq now id v hvb] at hv
        rw [← hv]
        exact ⟨rfl, rfl⟩
    | false =>
        rw [completeOne_of_ne now id v hvb] at hv
        rw [hv] at hvb
        rw [hid] at hvb
        simp at hvb
  · intro u hu hid
    simp only [completeTask, List.mem_map] at hu
    obtain ⟨v, hvm, hv⟩ := hu
    cases hvb : (v.id == id) with
    | true =>
        rw [completeOne_of_eq now id v hvb] at hv
        rw [← hv] at hid
        exact absurd (by simpa using hvb) hid
    | false =>
        rw [completeOne_of_ne now id v hvb] at hv
        rw [← hv]
        exact hvm
  · intro t now' hf
    have hp := List.find?_some hf
    have htc : (completeOne now id t).completed = true := by
      rw [completeOne_of_eq now id t hp]
    have hf2 : (s.tasks.map (completeOne now id)).find? (fun u => u.id == id) =
        some (completeOne now id t) := by
      rw [find?_map_complete, hf, Option.map_some']
    have hfire2 : fireOf id (s.tasks.map (completeOne now id)) = false := by
      rw [fireOf_some id _ (completeOne now id t) hf2, htc]
      rfl
    constructor
    · show (if fireOf id (s.tasks.map (completeOne now id)) = true
          then (completeTask now id s).streak + 1
          else (completeTask now id s).streak) = (completeTask now id s).streak
      rw [hfire2, if_neg Bool.false_ne_true]
    · show (if fireOf id (s.tasks.map (completeOne now id)) = true
          then (completeTask now id s).completedNotifs ++ [id]
          else (completeTask now id s).completedNotifs) =
        (completeTask now id s).completedNotifs
      rw [hfire2, if_neg Bool.false_ne_true]

/-- C2 witness: applies the amended theorem at a one-task state — unknown id
is a no-op, completing the incomplete task bumps the streak and notifies
once, and a repeat call adds nothing. -/
theorem completeTask_spec_witness :
    completeTask 5 9 { initApp with tasks := [⟨1, "a", 10, false, none, 0, false⟩] } =
      { initApp with tasks := [⟨1, "a", 10, false, none, 0, false⟩] } ∧
    (completeTask 5 1 { initApp with tasks := [⟨1, "a", 10, false, none, 0, false⟩] }).streak =
      0 + 1 ∧
    (completeTask 6 1 (completeTask 5 1
      { initApp with tasks := [⟨1, "a", 10, false, none, 0, false⟩] })).streak =
      (completeTask 5 1 { initApp with tasks := [⟨1, "a", 10, false, none, 0, false⟩] }).streak :=
  ⟨(completeTask_spec { initApp with tasks := [⟨1, "a", 10, false, none, 0, false⟩] } 5 9).1
      (by decide),
   ((completeTask_spec { initApp with tasks := [⟨1, "a", 10, false, none, 0, false⟩] } 5 1).2.1
      ⟨1, "a", 10, false, none, 0, false⟩ (by decide) rfl).1,
   ((completeTask_spec { initApp with tasks := [⟨1, "a", 10, false, none, 0, false⟩] } 5 1).2.2.2.2.2.2
      ⟨1, "a", 10, false, none, 0, false⟩ 6 (by decide)).1⟩

/-! ## Claim C10: the streak counter -/

/-- C10. The streak increases by exactly 1 on `completeTask` of an existing
incomplete task; it is unchanged by `completeTask` on an unknown or
already-completed id, by `addTask` and by `deleteTask`; and `clearAllTasks`
sets it to 0. -/
theorem streak_spec (s : AppState) (now id addNow : Nat) (title : String) (deadline : Nat) :
    (∀ t, s.tasks.find? (fun u => u.id == id) = some t → t.completed = false →
      (completeTask now id s).streak = s.streak + 1) ∧
    (∀ t, s.tasks.find? (fun u => u.id == id) = some t → t.completed = true →
      (completeTask now id s).streak = s.streak) ∧
    (s.tasks.find? (fun u => u.id == id) = none →
      (completeTask now id s).streak = s.streak) ∧
    (addTask addNow title deadline s).streak = s.streak ∧
    (deleteTask id s).streak = s.streak ∧
    (clearAllTasks s).streak = 0 := by
  refine ⟨?_, ?_, ?_, rfl, rfl, rfl⟩
  · intro t hf hc
    have hfire : fireOf id s.tasks = true := by
      rw [fireOf_some id s.tasks t hf, hc]
      rfl
    show (if fireOf id s.tasks = true then s.streak + 1 else s.streak) = s.streak + 1
    rw [hfire, if_pos rfl]
  · intro t hf hc
    have hfire : fireOf id s.tasks = false := by
      rw [fireOf_some id s.tasks t hf, hc]
      rfl
    show (if fireOf id s.tasks = true then s.streak + 1 else s.streak) = s.streak
    rw [hfire, if_neg Bool.false_ne_true]
  · intro hf
    have hfire : fireOf id s.tasks = false := fireOf_none id s.tasks hf
    show (if fireOf id s.tasks = true then s.streak + 1 else s.streak) = s.streak
    rw [hfire, if_neg Bool.false_ne_true]

/-- C10 witness: completing the one incomplete task moves the streak from 3
to 4; completing an unknown id leaves it at 3. -/
theorem streak_spec_witness :
    (completeTask 5 1
      { initApp with tasks := [⟨1, "a", 10, false, none, 0, false⟩], streak := 3 }).streak =
      3 + 1 ∧
    (completeTask 5 9
      { initApp with tasks := [⟨1, "a", 10, false, none, 0, false⟩], streak := 3 }).streak = 3 :=
  ⟨(streak_spec { initApp with tasks := [⟨1, "a", 10, false, none, 0, false⟩], streak := 3 }
      5 1 0 "" 0).1 ⟨1, "a", 10, false, none, 0, false⟩ (by decide) rfl,
   (streak_spec { initApp with tasks := [⟨1, "a", 10, false, none, 0, false⟩], streak := 3 }
      5 9 0 "" 0).2.2.1 (by decide)⟩

/-! ## Claim C3: first monitor tick after adding a past-due task -/

theorem getBucket_recordMissed (h : History) (today : String) :
    (recordMissed today h).getBucket today =
      ⟨(h.getBucket today).completed, (h.getBucket today).missed + 1⟩ := by
  unfold recordMissed History.getBucket
  rw [lookup_setKey_self]
  rfl

theorem appFoldl_quiet (today : String) (now : Nat) :
    ∀ (l : List Task) (s : AppState),
    (∀ u ∈ l, u.completed = true ∨ u.id ∈ s.notifiedSet ∨ ¬ (u.deadline < now)) →
    l.foldl (appStep today now) s = s := by
  intro l
  induction l with
  | nil => intro s _; rfl
  | cons u rest ih =>
      intro s hl
      have hu := hl u (List.mem_cons_self u rest)
      have hstep : appStep today now s u = s := by
        unfold appStep
        by_cases hc : u.completed
        · rw [if_pos (by rw [hc])]
        · rcases hu with h | h | h
          · exact absurd h (by simpa using hc)
          · rw [if_neg (by simpa using hc), if_pos h]
          · rw [if_neg (by simpa using hc)]
            by_cases hm : u.id ∈ s.notifiedSet
            · rw [if_pos hm]
            · rw [if_neg hm, if_neg (by simpa [isOverdue] using h)]
      rw [List.foldl_cons, hstep]
      exact ih s (fun v hv => hl v (List.mem_cons_of_mem u hv))

/-- C3 counterexample. Adding the past-due task "Pay rent" (deadline 50,
added and ticked at time 100) to a fresh app and running the first monitor
tick produces exactly one overdue notification and increments today's
`missed` to 1 — but the task's `notified` flag stays `false` (the tick
callback never calls `markNotified`), contradicting the claim that the
first tick sets it to true. -/
theorem firstTick_flag_counterexample :
    (appTick "d" 100 (addTask 100 "Pay rent" 50 initApp)).overdueNotifs.count 100 = 1 ∧
    ((appTick "d" 100 (addTask 100 "Pay rent" 50 initApp)).history.getBucket "d").missed = 1 ∧
    (appTick "d" 100 (addTask 100 "Pay rent" 50 initApp)).tasks.all
      (fun t => !t.notified) = true := by decide

/-- C3 (amended). After adding a task whose deadline is in the past, the
first monitor tick produces exactly one overdue notification for it, adds
its id to the monitor's in-memory notified set, and increments the `missed`
count of today's bucket by exactly 1 (the `completed` count unchanged) —
provided no other task fires on that tick; the task's `notified` flag
remains `false`, because the tick's callback records the miss but never
invokes `markNotified`. -/
theorem firstTick_after_add_spec (s : AppState) (today title : String)
    (deadline addNow tickNow : Nat)
    (hquiet : ∀ u ∈ s.tasks, u.completed = true ∨ u.id ∈ s.notifiedSet ∨
      ¬ (u.deadline < tickNow))
    (hfresh : addNow ∉ s.notifiedSet)
    (hnew : s.overdueNotifs.count addNow = 0)
    (hpast : deadline < tickNow) :
    (appTick today tickNow (addTask addNow title deadline s)).overdueNotifs.count addNow
      = 1 ∧
    ((appTick today tickNow (addTask addNow title deadline s)).history.getBucket
      today).missed = (s.history.getBucket today).missed + 1 ∧
    ((appTick today tickNow (addTask addNow title deadline s)).history.getBucket
      today).completed = (s.history.getBucket today).completed ∧
    (appTick today tickNow (addTask addNow title deadline s)).notifiedSet =
      s.notifiedSet ++ [addNow] ∧
    (appTick today tickNow (addTask addNow title deadline s)).tasks =
      s.tasks ++ [⟨addNow, title, deadline, false, none, addNow, false⟩] := by
  set t₀ : Task := ⟨addNow, title, deadline, false, none, addNow, false⟩ with ht₀
  set s₁ : AppState := addTask addNow title deadline s with hs₁
  have htasks : s₁.tasks = s.tasks ++ [t₀] := rfl
  have hemp : ¬ s₁.tasks.isEmpty := by
    rw [htasks]
    simp
  have htick : appTick today tickNow s₁ = s₁.tasks.foldl (appStep today tickNow) s₁ := by
    unfold appTick
    rw [if_neg (by rw [htasks]; simp)]
  have hq : s.tasks.foldl (appStep today tickNow) s₁ = s₁ :=
    appFoldl_quiet today tickNow s.tasks s₁ (fun u hu => hquiet u hu)
  have hfire : appStep today tickNow s₁ t₀ =
      { s₁ with notifiedSet := s₁.notifiedSet ++ [t₀.id],
                overdueNotifs := s₁.overdueNotifs ++ [t₀.id],
                history := recordMissed today s₁.history } := by
    unfold appStep
    rw [if_neg (by exact Bool.false_ne_true),
      if_neg (show t₀.id ∉ s₁.notifiedSet from hfresh),
      if_pos (by simpa [isOverdue] using hpast)]
  have hrun : appTick today tickNow s₁ =
      { s₁ with notifiedSet := s₁.notifiedSet ++ [t₀.id],
                overdueNotifs := s₁.overdueNotifs ++ [t₀.id],
                history := recordMissed today s₁.history } := by
    rw [htick, htasks, List.foldl_append, List.foldl_cons, List.foldl_nil]
    rw [show s.tasks.foldl (appStep today tickNow) s₁ = s₁ from hq, hfire, htasks]
  rw [hrun]
  refine ⟨?_, ?_, ?_, rfl, rfl⟩
  · show (s.overdueNotifs ++ [addNow]).count addNow = 1
    simp [List.count_append, hnew]
  · show ((recordMissed today s.history).getBucket today).missed =
      (s.history.getBucket today).missed + 1
    rw [getBucket_recordMissed]
  · show ((recordMissed today s.history).getBucket today).completed =
      (s.history.getBucket today).completed
    rw [getBucket_recordMissed]

/-- C3 witness: the amended theorem applied at the concrete "Pay rent"
scenario on the fresh app state. -/
theorem firstTick_after_add_spec_witness :
    (appTick "2026-02-20" 100 (addTask 100 "Pay rent" 50 initApp)).overdueNotifs.count 100
      = 1 ∧
    ((appTick "2026-02-20" 100 (addTask 100 "Pay rent" 50 initApp)).history.getBucket
      "2026-02-20").missed = (initApp.history.getBucket "2026-02-20").missed + 1 ∧
    (appTick "2026-02-20" 100 (addTask 100 "Pay rent" 50 initApp)).tasks =
      initApp.tasks ++ [⟨100, "Pay rent", 50, false, none, 100, false⟩] := by
  have h := firstTick_after_add_spec initApp "2026-02-20" "Pay rent" 50 100 100
    (by intro u hu; cases hu) (by decide) (by decide) (by decide)
  exact ⟨h.1, h.2.1, h.2.2.2.2⟩

end TaskReminder
